import Mathlib

/-!
Shallow embedding of the request-dispatch and artifact-packaging subsystem of
the `peak` SDK (the library under `src/.venv/.../peak/` that the repository's
`hello-world.py` application is built on), together with theorems settling the
specification claims.  Python functions are translated into executable Lean
definitions: dictionaries become association lists, `None` becomes `Option`,
raised exceptions become `Except` errors, and filesystem / transport state is
passed explicitly.
-/

namespace Peak

/-! ## constants.py -/

/-- `MB = 2**20` from `peak/constants.py`. -/
def MB : Nat := 2 ^ 20

/-- `MAX_ARTIFACT_SIZE_MB: int = 10` from `peak/constants.py`. -/
def MAX_ARTIFACT_SIZE_MB : Nat := 10

/-- `DOWNLOAD_CHUNK_SIZE = 128` from `peak/constants.py`. -/
def DOWNLOAD_CHUNK_SIZE : Nat := 128

/-- The `Stage` enum from `peak/constants.py` (values are the lower-cased names). -/
inductive Stage
  | DEV
  | LATEST
  | TEST
  | BETA
  | PROD
  | PARVATI
  deriving DecidableEq, Repr

/-- `Stage(value)` construction: Python raises `ValueError` for an unknown value,
modelled as `none`. -/
def Stage.ofString : String → Option Stage
  | "dev" => some .DEV
  | "latest" => some .LATEST
  | "test" => some .TEST
  | "beta" => some .BETA
  | "prod" => some .PROD
  | "parvati" => some .PARVATI
  | _ => none

/-! ## exceptions.py -/

/-- The exception kinds a call into the SDK can surface, one constructor per
exception class of `peak/exceptions.py` that the embedded code raises, plus
Python built-ins (`ValueError` from `Path.relative_to`) and the plain
`Exception` default of the HTTP registry. -/
inductive ErrKind
  | BadRequest
  | Unauthorized
  | Forbidden
  | NotFound
  | Conflict
  | PayloadTooLarge
  | UnprocessableEntity
  | InternalServerError
  | GenericException
  | InvalidPath
  | MissingEnvironmentVariable
  | FileLimitExceeded
  | ValueErr
  deriving DecidableEq, Repr

/-- The entries `HttpExceptionsRegistryMeta.REGISTRY` accumulates: each subclass
of `BaseHttpException` in `peak/exceptions.py` that sets a truthy `STATUS_CODE`
registers itself under that code. -/
def registeredHttpExceptions : List (Nat × ErrKind) :=
  [(400, .BadRequest),
   (401, .Unauthorized),
   (403, .Forbidden),
   (404, .NotFound),
   (409, .Conflict),
   (413, .PayloadTooLarge),
   (422, .UnprocessableEntity),
   (500, .InternalServerError)]

/-- `BaseHttpException.REGISTRY[code]`: the registry is a
`defaultdict(lambda: Exception)`, so an unregistered status code yields the
plain `Exception` class. -/
def REGISTRY (code : Nat) : ErrKind :=
  (((registeredHttpExceptions.find? (fun p => p.1 == code)).map Prod.snd)).getD
    .GenericException

/-! ## handler.py : HandlerUtils -/

/-- An HTTP response as the handler sees it: a status code and the decoded
JSON body (`response.json()`), the body left abstract. -/
structure Response (β : Type) where
  status_code : Nat
  body : β
  deriving DecidableEq, Repr

/-- `HandlerUtils.handle_response`: return the response when
`200 <= response.status_code < 300`, otherwise raise
`BaseHttpException.REGISTRY[response.status_code](response.json())` — the
raised kind carries the decoded body. -/
def handle_response {β : Type} (response : Response β) :
    Except (ErrKind × β) (Response β) :=
  if 200 ≤ response.status_code ∧ response.status_code < 300 then
    .ok response
  else
    .error (REGISTRY response.status_code, response.body)

/-- `HandlerUtils.parse_args`: `{k: v for k, v in arguments.items() if v is not None}`.
A Python dict of possibly-`None` values is modelled as an association list of
`Option` values; the comprehension keeps the bindings whose value is not `None`. -/
def parse_args {V : Type} (arguments : List (String × Option V)) :
    List (String × Option V) :=
  arguments.filter (fun kv => kv.2.isSome)

/-! ## Theorems for C2 (status-code mapping) and C7 (null-parameter dropping) -/

/-- **C2.** `handle_response` returns the response unchanged exactly on status
codes in `[200, 300)`; any other status raises the registered kind carrying the
decoded body; 404 maps to `NotFound`, the unmapped 418 falls back to the
generic kind; and the registered codes are exactly
400, 401, 403, 404, 409, 413, 422, 500. -/
theorem handle_response_registry_spec {β : Type} (r : Response β) :
    (200 ≤ r.status_code ∧ r.status_code < 300 → handle_response r = .ok r) ∧
    (¬(200 ≤ r.status_code ∧ r.status_code < 300) →
      handle_response r = .error (REGISTRY r.status_code, r.body)) ∧
    REGISTRY 404 = .NotFound ∧
    REGISTRY 418 = .GenericException ∧
    (∀ c : Nat, REGISTRY c ≠ .GenericException ↔
      c ∈ [400, 401, 403, 404, 409, 413, 422, 500]) := by
  refine ⟨fun h => ?_, fun h => ?_, by decide, by decide, fun c => ?_⟩
  · simp [handle_response, h]
  · simp [handle_response, h]
  · constructor
    · intro hne
      by_contra hmem
      simp only [List.mem_cons, List.not_mem_nil, or_false, not_or] at hmem
      have hfind :
          registeredHttpExceptions.find? (fun p => p.1 == c) = none := by
        rw [List.find?_eq_none]
        intro p hp
        simp only [registeredHttpExceptions, List.mem_cons, List.not_mem_nil,
          or_false] at hp
        rcases hp with h1 | h1 | h1 | h1 | h1 | h1 | h1 | h1 <;>
          (subst h1; simp only [beq_iff_eq]; omega)
      exact hne (by simp [REGISTRY, hfind])
    · intro hmem
      have : c = 400 ∨ c = 401 ∨ c = 403 ∨ c = 404 ∨ c = 409 ∨ c = 413 ∨
          c = 422 ∨ c = 500 := by simpa [List.mem_cons] using hmem
      rcases this with h1 | h1 | h1 | h1 | h1 | h1 | h1 | h1 <;> subst h1 <;> decide

/-- Witness for C2: the 404 case, the 200 case, and the 418 fallback, evaluated
at concrete responses. -/
theorem handle_response_registry_spec_witness :
    handle_response (⟨404, 7⟩ : Response Nat) = .error (.NotFound, 7) ∧
    handle_response (⟨200, 7⟩ : Response Nat) = .ok ⟨200, 7⟩ ∧
    handle_response (⟨418, 7⟩ : Response Nat) = .error (.GenericException, 7) := by
  have h404 := handle_response_registry_spec (⟨404, 7⟩ : Response Nat)
  have h200 := handle_response_registry_spec (⟨200, 7⟩ : Response Nat)
  have h418 := handle_response_registry_spec (⟨418, 7⟩ : Response Nat)
  refine ⟨?_, ?_, ?_⟩
  · rw [h404.2.1 (by decide)]
    simp [h404.2.2.1, REGISTRY, registeredHttpExceptions]
  · exact h200.1 (by decide)
  · rw [h418.2.1 (by decide)]
    simp [h418.2.2.2.1, REGISTRY, registeredHttpExceptions]

/-- **C7.** `parse_args` returns exactly the sub-dictionary of entries whose
values are not `None`: every surviving binding occurs, unaltered, in the input;
every non-`None` input binding survives; no `None`-valued binding survives; and
the output is a sublist of the input (order kept, nothing added). -/
theorem parse_args_spec {V : Type} (arguments : List (String × Option V)) :
    (∀ (k : String) (v : V),
        (k, some v) ∈ parse_args arguments ↔ (k, some v) ∈ arguments) ∧
    (∀ k : String, (k, (none : Option V)) ∉ parse_args arguments) ∧
    (parse_args arguments).Sublist arguments := by
  refine ⟨fun k v => ?_, fun k => ?_, List.filter_sublist _⟩
  · simp [parse_args, List.mem_filter]
  · simp [parse_args, List.mem_filter]

/-- Witness for C7 at a concrete dictionary: the `None`-valued key is dropped,
the other survives with its value. -/
theorem parse_args_spec_witness :
    (("a", some 1) ∈ parse_args [("a", some 1), ("b", (none : Option Nat))]) ∧
    (("b", (none : Option Nat)) ∉ parse_args [("a", some 1), ("b", none)]) := by
  have h := parse_args_spec [("a", some 1), ("b", (none : Option Nat))]
  exact ⟨(h.1 "a" 1).mpr (by decide), h.2.1 "b"⟩

/-! ## handler.py : AuthRetrySession -/

/-- The keyword arguments `AuthRetrySession._DEFAULT_RETRY_CONFIG` passes to
`urllib3.util.Retry`. -/
structure RetryConfig where
  backoff_factor : Nat
  total : Nat
  status_forcelist : List Nat
  deriving DecidableEq, Repr

/-- `AuthRetrySession._DEFAULT_RETRY_CONFIG` from `peak/handler.py`:
`{"backoff_factor": 2, "total": 5, "status_forcelist": [500, 502, 503, 504]}`. -/
def _DEFAULT_RETRY_CONFIG : RetryConfig :=
  { backoff_factor := 2, total := 5, status_forcelist := [500, 502, 503, 504] }

/-- `ApplicationJsonHandler.handle` as the source wires it: the request goes
out through the module-level `requests` function
(`getattr(requests, method.value)(url, ...)`) — one underlying transport
call — and the response is mapped by `handle_response`.  No retry adapter is
in effect: `AuthRetrySession._add_retries` has no caller anywhere in the
package, and the handlers do not issue the request through the session object
in any case, so `_DEFAULT_RETRY_CONFIG` is never applied.  `transport i` is
the response the underlying transport gives on its `i`-th call (0-based); the
second component counts the underlying transport calls made. -/
def application_json_handle {β : Type} (transport : Nat → Response β) :
    Except (ErrKind × β) (Response β) × Nat :=
  (handle_response (transport 0), 1)

/-- **C1 (code bug).** The claim's retry behaviour never happens: on the
claim's own failing input — a transport answering 503 on its first three calls
and 200 on the fourth — the handler performs exactly one underlying transport
call and immediately raises the generic registry exception for the unmapped
status 503, instead of succeeding after 4 calls; the retry configuration
(statuses 500/502/503/504, 5 total) sits in the source but is never mounted,
since `_add_retries` is never invoked and the handlers bypass the session. -/
theorem retry_never_applied_spec :
    application_json_handle
        (fun i => if i < 3 then (⟨503, 0⟩ : Response Nat) else ⟨200, 0⟩) =
      (.error (.GenericException, 0), 1) ∧
    REGISTRY 503 = .GenericException ∧
    _DEFAULT_RETRY_CONFIG.status_forcelist = [500, 502, 503, 504] ∧
    _DEFAULT_RETRY_CONFIG.total = 5 :=
  ⟨rfl, rfl, rfl, rfl⟩

/-! ## session.py : Session.create_generator_request -/

/-- One page of a list endpoint's response: the named collection
(`response[response_key]`) and the authoritative `pageCount`. -/
structure Page (α : Type) where
  items : List α
  pageCount : Nat
  deriving DecidableEq, Repr

/-- The loop of `Session.create_generator_request`: while
`page_number <= page_count`, request the current page, read the authoritative
`pageCount` from the response, yield each item of the page's named collection
in order, then advance `page_number`.  `resp n` is the decoded response to the
single-page request with `pageNumber = n`; since the observed `pageCount` can
change between iterations, the recursion is driven by explicit fuel. -/
def paginateLoop {α : Type} (resp : Nat → Page α) :
    Nat → Nat → Nat → List α
  | 0, _, _ => []
  | fuel + 1, page_number, page_count =>
    if page_number ≤ page_count then
      let response := resp page_number
      response.items ++ paginateLoop resp fuel (page_number + 1) response.pageCount
    else []

/-- `Session.create_generator_request`, starting from `page_number = 1`,
`page_count = 1`. -/
def create_generator_request {α : Type} (resp : Nat → Page α) (fuel : Nat) :
    List α :=
  paginateLoop resp fuel 1 1

/-- Helper: with a constant observed `pageCount = total`, the loop from page
`k ≥ 1` with enough fuel yields the concatenation of the items of pages
`k, k+1, …, total` and then terminates. -/
theorem paginateLoop_const_count {α : Type} (resp : Nat → Page α) (total : Nat)
    (hcount : ∀ n, (resp n).pageCount = total) :
    ∀ fuel k, 1 ≤ k → total + 1 - k ≤ fuel →
      paginateLoop resp fuel k total =
        ((List.range' k (total + 1 - k)).map (fun n => (resp n).items)).flatten := by
  intro fuel
  induction fuel with
  | zero =>
    intro k hk hfuel
    have : total + 1 - k = 0 := by omega
    simp [paginateLoop, this]
  | succ m ih =>
    intro k hk hfuel
    by_cases hle : k ≤ total
    · have hrange : total + 1 - k = (total + 1 - (k + 1)) + 1 := by omega
      rw [paginateLoop, if_pos hle]
      show (resp k).items ++ paginateLoop resp m (k + 1) (resp k).pageCount = _
      rw [hcount k, ih (k + 1) (by omega) (by omega), hrange, List.range'_succ]
      simp
    · have : total + 1 - k = 0 := by omega
      rw [paginateLoop, if_neg hle, this]
      simp

/-- **C3.** The sequencer starts with `pageNumber = 1` and `pageCount = 1`;
when every page response reports the same authoritative `pageCount = total ≥ 1`,
it yields, given enough fuel, exactly the items of pages `1, …, total`
concatenated in response order and then terminates — pages beyond `total` are
never consulted. -/
theorem create_generator_request_spec {α : Type} (resp : Nat → Page α)
    (total fuel : Nat) (htotal : 1 ≤ total) (hfuel : total ≤ fuel)
    (hcount : ∀ n, (resp n).pageCount = total) :
    create_generator_request resp fuel =
      ((List.range' 1 total).map (fun n => (resp n).items)).flatten := by
  have h1 : paginateLoop resp fuel 1 1 =
      (resp 1).items ++ paginateLoop resp (fuel - 1) 2 total := by
    obtain ⟨m, rfl⟩ : ∃ m, fuel = m + 1 := ⟨fuel - 1, by omega⟩
    rw [paginateLoop, if_pos (by omega)]
    show (resp 1).items ++ paginateLoop resp m 2 (resp 1).pageCount = _
    rw [hcount 1]
    simp
  rw [create_generator_request, h1,
    paginateLoop_const_count resp total hcount (fuel - 1) 2 (by omega) (by omega)]
  have : total = (total - 1) + 1 := by omega
  rw [this, List.range'_succ]
  simp

/-- Witness for C3: the spec's concrete example — pages
`[{items:[a,b], pageCount:2}, {items:[c], pageCount:2}]` yield exactly
`a, b, c`. -/
theorem create_generator_request_spec_witness :
    create_generator_request
        (fun n => if n = 1 then ⟨["a", "b"], 2⟩ else ⟨["c"], 2⟩) 4 =
      ["a", "b", "c"] := by
  rw [create_generator_request_spec
    (fun n => if n = 1 then ⟨["a", "b"], 2⟩ else ⟨["c"], 2⟩) 2 4
    (by omega) (by omega) (fun n => by by_cases h : n = 1 <;> simp [h])]
  decide

/-! ## compression.py : _reverse_pattern and _load_ignore_patterns -/

/-- Python's `str.strip()`: leading and trailing whitespace removed, modelled
on the underlying character list. -/
def pyStrip (s : String) : String :=
  ⟨((s.data.dropWhile Char.isWhitespace).reverse.dropWhile
      Char.isWhitespace).reverse⟩

/-- Python's `str.startswith(p)`, modelled on the underlying character list. -/
def pyStartsWith (s p : String) : Bool := p.data.isPrefixOf s.data

/-- Python's `s[1:]`, modelled on the underlying character list. -/
def pyDrop1 (s : String) : String := ⟨s.data.drop 1⟩

/-- `compression._reverse_pattern`: strip the line; pass stripped blank and
`#`-comment lines through; drop a leading `!`; otherwise prepend `!`. -/
def _reverse_pattern (pattern : String) : String :=
  let pattern := pyStrip pattern
  if pattern.data.isEmpty || pyStartsWith pattern "#" then pattern
  else if pyStartsWith pattern "!" then pyDrop1 pattern
  else "!" ++ pattern

/-- The pattern list assembled by `compression._load_ignore_patterns`:
`all_patterns` starts as `["*"]` and each ignore file's lines are appended
after mapping `_reverse_pattern` over them. -/
def all_patterns (fileLines : List (List String)) : List String :=
  fileLines.foldl (fun acc lines => acc ++ lines.map _reverse_pattern) ["*"]

/-- Helper: folding appends of mapped blocks over a seed equals the seed
followed by the map over the flattened blocks. -/
theorem foldl_append_map_eq {α β : Type} (f : α → β)
    (blocks : List (List α)) (seed : List β) :
    blocks.foldl (fun acc lines => acc ++ lines.map f) seed =
      seed ++ (blocks.flatten).map f := by
  induction blocks generalizing seed with
  | nil => simp
  | cons b rest ih => simp [List.foldl_cons, ih]

/-! ## compression.py : path validation in compress / _load_ignore_patterns -/

/-- `Path.resolve()` on a path given by components: `.` and empty components
vanish, `..` removes the last accumulated component (the filesystem root is its
own parent), other components accumulate. -/
def resolveComps : List String → List String → List String
  | acc, [] => acc
  | acc, c :: rest =>
    if c = "." ∨ c = "" then resolveComps acc rest
    else if c = ".." then resolveComps acc.dropLast rest
    else resolveComps (acc ++ [c]) rest

/-- Resolve a path (components of an absolute path) from an empty accumulator. -/
def resolve (p : List String) : List String := resolveComps [] p

/-- `Path.relative_to`: the relative remainder when `base` is a prefix of `p`,
otherwise Python raises `ValueError`.  For a relative result of `n` components
`len(result.parents) = n` (with `Path(".")` giving 0), so the component list
itself carries the parent count. -/
def relative_to (p base : List String) : Except ErrKind (List String) :=
  if base.isPrefixOf p then .ok (p.drop base.length) else .error .ValueErr

/-- The per-ignore-file check of `compression._load_ignore_patterns`:
`normalized = (path_obj / ignore_file).resolve().relative_to(path_obj.resolve())`,
then `InvalidPathException` unless `len(normalized.parents) == 1`. -/
def validate_ignore_file (root ignore_file : List String) :
    Except ErrKind Unit := do
  let normalized ← relative_to (resolve (root ++ ignore_file)) (resolve root)
  if normalized.length ≠ 1 then .error .InvalidPath else .ok ()

/-- The loop of `_load_ignore_patterns` over the supplied ignore files, first
error surfacing. -/
def validate_ignore_files (root : List String) :
    List (List String) → Except ErrKind Unit
  | [] => .ok ()
  | f :: rest => do
    let _ ← validate_ignore_file root f
    validate_ignore_files root rest

/-- The input-validation phase of `compression.compress`: raise
`InvalidPathException` when `path` is not an existing directory, then run the
ignore-file checks of `_load_ignore_patterns`. -/
def compress_validate (path_is_dir : Bool) (root : List String)
    (ignore_files : List (List String)) : Except ErrKind Unit :=
  if !path_is_dir then .error .InvalidPath
  else validate_ignore_files root ignore_files

/-! ## compression.py : compress size enforcement -/

/-- A file selected for inclusion: its archive name and the number of bytes its
write adds to the compressed stream (`tmp_file.tell()` advances by this much). -/
structure FileEntry where
  name : String
  compressedSize : Nat
  deriving DecidableEq, Repr

/-- The archive stream under construction: entry names written so far, in
order, and the current compressed size (`tmp_file.tell()`). -/
structure ZipArchive where
  entries : List String
  size : Nat
  deriving DecidableEq, Repr

/-- Total compressed contribution of a list of files. -/
def sumSizes (files : List FileEntry) : Nat :=
  (files.map FileEntry.compressedSize).sum

/-- The file-writing loop of `compression.compress`: write each included file,
then check `tmp_file.tell() > MAX_ARTIFACT_SIZE_MB * MB` and raise
`FileLimitExceededException` at once when it exceeds — remaining files are not
written.  The error carries the archive state at the moment of failure. -/
def writeFilesLoop (maxBytes : Nat) :
    List FileEntry → ZipArchive → Except ZipArchive ZipArchive
  | [], st => .ok st
  | f :: rest, st =>
    let st2 : ZipArchive := ⟨st.entries ++ [f.name], st.size + f.compressedSize⟩
    if st2.size > maxBytes then .error st2
    else writeFilesLoop maxBytes rest st2

/-- `compression.compress` after validation: write the included files under the
size check, and only once all files are written append the explicit directory
entries and hand back the stream. -/
def compress_archive (files : List FileEntry) (dirs : List String) :
    Except ZipArchive ZipArchive :=
  match writeFilesLoop (MAX_ARTIFACT_SIZE_MB * MB) files ⟨[], 0⟩ with
  | .error st => .error st
  | .ok st => .ok ⟨st.entries ++ dirs, st.size⟩

/-- Helper: when the pending files push the stream over the budget, the write
loop stops at the first file whose write exceeds it, having written exactly the
files before and including it and none after. -/
theorem writeFilesLoop_exceeds (maxBytes : Nat) :
    ∀ (files : List FileEntry) (st : ZipArchive),
      st.size ≤ maxBytes → maxBytes < st.size + sumSizes files →
      ∃ k, 0 < k ∧ k ≤ files.length ∧
        writeFilesLoop maxBytes files st =
          .error ⟨st.entries ++ (files.take k).map FileEntry.name,
                  st.size + sumSizes (files.take k)⟩ ∧
        maxBytes < st.size + sumSizes (files.take k) ∧
        ∀ j, j < k → st.size + sumSizes (files.take j) ≤ maxBytes := by
  intro files
  induction files with
  | nil =>
    intro st h1 h2
    simp [sumSizes] at h2
    omega
  | cons f rest ih =>
    intro st h1 h2
    by_cases hover : maxBytes < st.size + f.compressedSize
    · refine ⟨1, by omega, by simp, ?_, ?_, ?_⟩
      · rw [writeFilesLoop, if_pos (by simp; omega)]
        simp [sumSizes]
      · simp [sumSizes]; omega
      · intro j hj
        have : j = 0 := by omega
        subst this
        simp [sumSizes]; omega
    · push_neg at hover
      have h2r : maxBytes <
          st.size + f.compressedSize + sumSizes rest := by
        simp only [sumSizes, List.map_cons, List.sum_cons] at h2 ⊢
        omega
      obtain ⟨k, hk0, hklen, heq, hexceed, hbefore⟩ :=
        ih ⟨st.entries ++ [f.name], st.size + f.compressedSize⟩ hover h2r
      refine ⟨k + 1, by omega, by simpa using by omega, ?_, ?_, ?_⟩
      · rw [writeFilesLoop, if_neg (by simp; omega), heq]
        simp [sumSizes]
        omega
      · simp only [sumSizes, List.take_succ_cons, List.map_cons, List.sum_cons]
        simp only [sumSizes] at hexceed
        omega
      · intro j hj
        match j with
        | 0 => simpa [sumSizes] using h1
        | j' + 1 =>
          have := hbefore j' (by omega)
          simp only [sumSizes, List.take_succ_cons, List.map_cons,
            List.sum_cons] at this ⊢
          omega

/-- **C4.** When the compressed contributions of the included files exceed the
10 MiB budget (`MAX_ARTIFACT_SIZE_MB * MB`), `compress` fails with the
file-limit error: the running size is checked after every file write, the
failure happens at the first write that exceeds the budget, the archive state
at failure holds exactly the files written up to that point — none of the
remaining files and no directory entry — and no archive stream is produced. -/
theorem compress_size_limit_spec (files : List FileEntry) (dirs : List String)
    (h : MAX_ARTIFACT_SIZE_MB * MB < sumSizes files) :
    ∃ k, 0 < k ∧ k ≤ files.length ∧
      compress_archive files dirs =
        .error ⟨(files.take k).map FileEntry.name, sumSizes (files.take k)⟩ ∧
      MAX_ARTIFACT_SIZE_MB * MB < sumSizes (files.take k) ∧
      ∀ j, j < k → sumSizes (files.take j) ≤ MAX_ARTIFACT_SIZE_MB * MB := by
  obtain ⟨k, hk0, hklen, heq, hexceed, hbefore⟩ :=
    writeFilesLoop_exceeds (MAX_ARTIFACT_SIZE_MB * MB) files ⟨[], 0⟩
      (by simp) (by simpa using h)
  refine ⟨k, hk0, hklen, ?_, by simpa using hexceed,
    fun j hj => by simpa using hbefore j hj⟩
  rw [compress_archive, heq]
  simp

/-- Witness for C4 at a concrete directory: two 6 MiB files and a third file
blow the 10 MiB budget; packaging aborts with the limit error. -/
theorem compress_size_limit_spec_witness :
    ∃ k, 0 < k ∧ k ≤ 3 ∧
      compress_archive [⟨"a", 6 * MB⟩, ⟨"b", 6 * MB⟩, ⟨"c", 1⟩] ["d"] =
        .error ⟨(([⟨"a", 6 * MB⟩, ⟨"b", 6 * MB⟩, ⟨"c", 1⟩] :
            List FileEntry).take k).map FileEntry.name,
          sumSizes (([⟨"a", 6 * MB⟩, ⟨"b", 6 * MB⟩, ⟨"c", 1⟩] :
            List FileEntry).take k)⟩ ∧
      MAX_ARTIFACT_SIZE_MB * MB <
        sumSizes (([⟨"a", 6 * MB⟩, ⟨"b", 6 * MB⟩, ⟨"c", 1⟩] :
          List FileEntry).take k) ∧
      ∀ j, j < k →
        sumSizes (([⟨"a", 6 * MB⟩, ⟨"b", 6 * MB⟩, ⟨"c", 1⟩] :
          List FileEntry).take j) ≤ MAX_ARTIFACT_SIZE_MB * MB :=
  compress_size_limit_spec [⟨"a", 6 * MB⟩, ⟨"b", 6 * MB⟩, ⟨"c", 1⟩] ["d"]
    (by decide)

/-! ## Theorems for C6 (pattern-sense inversion) -/

/-- Counterexample for C6 as stated: a comment line with trailing whitespace is
not passed through unchanged — `_reverse_pattern` strips the line first. -/
theorem reverse_pattern_counterexample :
    _reverse_pattern "# c " = "# c" ∧ "# c" ≠ "# c " := by decide

/-- **C6 (amended).** Each ignore-file line is first stripped of surrounding
whitespace; a stripped blank or `#`-comment line is passed through in stripped
form, a stripped line with a leading `!` has the `!` removed, and every other
stripped line gets a leading `!` prepended; the assembled pattern list is the
universal include-everything rule `*` followed by the inverted lines of the
ignore files, layered in order. -/
theorem reverse_pattern_spec (line : String) (files : List (List String)) :
    (((pyStrip line).data.isEmpty || pyStartsWith (pyStrip line) "#") = true →
      _reverse_pattern line = pyStrip line) ∧
    (((pyStrip line).data.isEmpty || pyStartsWith (pyStrip line) "#") = false →
      pyStartsWith (pyStrip line) "!" = true →
      _reverse_pattern line = pyDrop1 (pyStrip line)) ∧
    (((pyStrip line).data.isEmpty || pyStartsWith (pyStrip line) "#") = false →
      pyStartsWith (pyStrip line) "!" = false →
      _reverse_pattern line = "!" ++ pyStrip line) ∧
    all_patterns files = "*" :: (files.flatten).map _reverse_pattern := by
  refine ⟨fun h => ?_, fun h h2 => ?_, fun h h2 => ?_, ?_⟩
  · simp [_reverse_pattern, h]
  · simp [_reverse_pattern, h, h2]
  · simp [_reverse_pattern, h, h2]
  · rw [all_patterns, foldl_append_map_eq]
    rfl

/-- Witness for C6 at concrete lines: an ordinary pattern is inverted, a
negated pattern has its `!` removed, a comment passes through, and a one-file
pattern list is seeded with `*`. -/
theorem reverse_pattern_spec_witness :
    _reverse_pattern " foo " = "!foo" ∧
    _reverse_pattern "!bar" = "bar" ∧
    _reverse_pattern "# note" = "# note" ∧
    all_patterns [["foo", "!bar"]] = ["*", "!foo", "bar"] := by
  have hfoo := reverse_pattern_spec " foo " [["foo", "!bar"]]
  have hbar := reverse_pattern_spec "!bar" []
  have hnote := reverse_pattern_spec "# note" []
  refine ⟨?_, ?_, ?_, ?_⟩
  · rw [hfoo.2.2.1 (by decide) (by decide)]; decide
  · rw [hbar.2.1 (by decide) (by decide)]; decide
  · rw [hnote.1 (by decide)]; decide
  · rw [hfoo.2.2.2]; decide

/-! ## Theorems for C5 (InvalidPath conditions of compress) -/

/-- Counterexample for C5 as stated: an ignore-file path that resolves outside
the root (here `../evil` against root `/home/r`) does not resolve to a direct
child of the root, yet `compress` surfaces Python's `ValueError` from
`Path.relative_to`, not `InvalidPathException`. -/
theorem compress_invalid_path_counterexample :
    compress_validate true ["home", "r"] [["..", "evil"]] =
      .error .ValueErr ∧
    (Except.error ErrKind.ValueErr : Except ErrKind Unit) ≠
      .error .InvalidPath := by
  refine ⟨rfl, fun h => ?_⟩
  injection h with h2
  exact ErrKind.noConfusion h2

/-- Helper: an ignore file resolving to a direct child of the resolved root
passes the per-file check. -/
theorem validate_ignore_file_direct_child (root f : List String)
    (c : String) (h : resolve (root ++ f) = resolve root ++ [c]) :
    validate_ignore_file root f = .ok () := by
  have hpre : (resolve root).isPrefixOf (resolve (root ++ f)) = true := by
    rw [h, List.isPrefixOf_iff_prefix]
    exact ⟨[c], rfl⟩
  rw [validate_ignore_file, relative_to, if_pos hpre, h, List.drop_left]
  rfl

/-- **C5 (amended).** `compress` fails with `InvalidPath` when the path is not
an existing directory; an ignore-file path that resolves inside the root but
not to a direct child fails with `InvalidPath`; an ignore-file path that
resolves outside the root fails with Python's `ValueError` (not `InvalidPath`);
and for an existing directory whose ignore files all resolve to direct children
of the root, validation passes with no `InvalidPath`. -/
theorem compress_invalid_path_spec (root f : List String)
    (igs : List (List String)) :
    compress_validate false root igs = .error .InvalidPath ∧
    ((∀ g ∈ igs, ∃ c, resolve (root ++ g) = resolve root ++ [c]) →
      compress_validate true root igs = .ok ()) ∧
    (¬ (resolve root) <+: (resolve (root ++ f)) →
      validate_ignore_file root f = .error .ValueErr) ∧
    ((resolve root) <+: (resolve (root ++ f)) →
      (resolve (root ++ f)).length ≠ (resolve root).length + 1 →
      validate_ignore_file root f = .error .InvalidPath) := by
  refine ⟨by simp [compress_validate], fun hall => ?_, fun hnp => ?_,
    fun hp hlen => ?_⟩
  · rw [compress_validate]
    simp only [Bool.not_true, if_false]
    induction igs with
    | nil => rfl
    | cons g rest ih =>
      obtain ⟨c, hc⟩ := hall g (by simp)
      rw [validate_ignore_files, validate_ignore_file_direct_child root g c hc]
      exact ih (fun g hg => hall g (by simp [hg]))
  · have hpre : (resolve root).isPrefixOf (resolve (root ++ f)) = false := by
      rw [← Bool.not_eq_true, List.isPrefixOf_iff_prefix]
      exact hnp
    rw [validate_ignore_file, relative_to, if_neg (by simp [hpre])]
    rfl
  · have hpre : (resolve root).isPrefixOf (resolve (root ++ f)) = true := by
      rw [List.isPrefixOf_iff_prefix]
      exact hp
    have hdlen : ((resolve (root ++ f)).drop (resolve root).length).length ≠ 1 := by
      rw [List.length_drop]
      have := hp.length_le
      omega
    rw [validate_ignore_file, relative_to, if_pos hpre]
    show (if ((resolve (root ++ f)).drop (resolve root).length).length ≠ 1 then
        Except.error ErrKind.InvalidPath else Except.ok ()) = _
    rw [if_pos hdlen]

/-- Witness for C5 (amended) at concrete paths under root `/home/r`: a missing
directory gives `InvalidPath`; the direct child `.dockerignore` passes; the
nested `sub/ig` gives `InvalidPath`; the escaping `../evil` gives `ValueError`. -/
theorem compress_invalid_path_spec_witness :
    compress_validate false ["home", "r"] [[".dockerignore"]] =
      .error .InvalidPath ∧
    compress_validate true ["home", "r"] [[".dockerignore"]] = .ok () ∧
    validate_ignore_file ["home", "r"] ["..", "evil"] = .error .ValueErr ∧
    validate_ignore_file ["home", "r"] ["sub", "ig"] = .error .InvalidPath := by
  have hok := compress_invalid_path_spec ["home", "r"] ["sub", "ig"]
    [[".dockerignore"]]
  have hesc := compress_invalid_path_spec ["home", "r"] ["..", "evil"] []
  refine ⟨hok.1, ?_, ?_, ?_⟩
  · refine hok.2.1 (fun g hg => ?_)
    have : g = [".dockerignore"] := by simpa using hg
    subst this
    exact ⟨".dockerignore", rfl⟩
  · refine hesc.2.2.1 ?_
    intro hcontra
    rw [show resolve (["home", "r"] ++ ["..", "evil"]) = ["home", "evil"]
        from rfl,
      show resolve ["home", "r"] = ["home", "r"] from rfl] at hcontra
    obtain ⟨t, ht⟩ := hcontra
    simp only [List.cons_append, List.cons.injEq] at ht
    exact absurd ht.2.1 (by decide)
  · refine hok.2.2.2 ?_ ?_
    · rw [show resolve (["home", "r"] ++ ["sub", "ig"]) =
          ["home", "r", "sub", "ig"] from rfl,
        show resolve ["home", "r"] = ["home", "r"] from rfl]
      exact ⟨["sub", "ig"], rfl⟩
    · decide

/-! ## session.py : Session construction -/

/-- Python truthiness of `os.environ.get(name)`: `None` and the empty string
are falsy. -/
def envTruthy : Option String → Bool
  | none => false
  | some s => !s.isEmpty

/-- `Session._set_auth_token`: an explicit argument wins; otherwise the
`API_KEY` environment variable must be set and non-empty, else
`MissingEnvironmentVariableException`. -/
def _set_auth_token (env : String → Option String)
    (auth_token : Option String) : Except ErrKind String :=
  match auth_token with
  | some t => .ok t
  | none =>
    if !(envTruthy (env "API_KEY")) then .error .MissingEnvironmentVariable
    else .ok ((env "API_KEY").getD "")

/-- `Session._set_stage`: an explicit argument is parsed with `Stage(...)`
(`ValueError` when unknown); otherwise an unset or empty `STAGE` environment
variable defaults to `Stage.PROD`, and a set one is parsed with `Stage(...)`. -/
def _set_stage (env : String → Option String) (stage : Option String) :
    Except ErrKind Stage :=
  match stage with
  | some s =>
    match Stage.ofString s with
    | some st => .ok st
    | none => .error .ValueErr
  | none =>
    if !(envTruthy (env "STAGE")) then .ok Stage.PROD
    else
      match Stage.ofString ((env "STAGE").getD "") with
      | some st => .ok st
      | none => .error .ValueErr

/-- `Session.__init__`: resolve the credential, then the stage; the session
state the claims concern is the resolved `(auth_token, stage)` pair. -/
def sessionInit (env : String → Option String)
    (auth_token stage : Option String) : Except ErrKind (String × Stage) := do
  let t ← _set_auth_token env auth_token
  let s ← _set_stage env stage
  return (t, s)

/-- **C8.** With no credential argument and `API_KEY` unset or empty, session
construction fails with `MissingEnvironmentVariable`; with `API_KEY` set to a
non-empty value it succeeds and uses that value as the credential; the stage is
resolved the same way from `STAGE`, defaulting to production when both the
argument and the environment variable are absent. -/
theorem session_construction_spec (env : String → Option String) :
    ((env "API_KEY" = none ∨ env "API_KEY" = some "") →
      sessionInit env none none = .error .MissingEnvironmentVariable) ∧
    (∀ v : String, v ≠ "" → env "API_KEY" = some v → env "STAGE" = none →
      sessionInit env none none = .ok (v, Stage.PROD)) ∧
    (∀ (v s : String) (st : Stage), v ≠ "" → env "API_KEY" = some v →
      env "STAGE" = some s → Stage.ofString s = some st →
      sessionInit env none none = .ok (v, st)) := by
  refine ⟨fun h => ?_, fun v hv hkey hstage => ?_, fun v s st hv hkey hstage hparse => ?_⟩
  · rcases h with h | h <;>
      (simp only [sessionInit, _set_auth_token, envTruthy, h]; rfl)
  · have hv2 : v.isEmpty = false := by
      rw [← Bool.not_eq_true, String.isEmpty_iff]
      exact hv
    simp only [sessionInit, _set_auth_token, _set_stage, envTruthy, hkey,
      hstage, hv2]
    rfl
  · have hv2 : v.isEmpty = false := by
      rw [← Bool.not_eq_true, String.isEmpty_iff]
      exact hv
    have hs2 : s.isEmpty = false := by
      rw [← Bool.not_eq_true, String.isEmpty_iff]
      intro hempty
      subst hempty
      simp [Stage.ofString] at hparse
    simp only [sessionInit, _set_auth_token, _set_stage, envTruthy, hkey,
      hstage, hv2, hs2, Option.getD_some, hparse]
    rfl

/-- Witness for C8 at concrete environments: an empty environment fails with
the missing-variable error; one carrying only `API_KEY=tok` succeeds with
credential `tok` and the production stage default. -/
theorem session_construction_spec_witness :
    sessionInit (fun _ => none) none none =
      .error .MissingEnvironmentVariable ∧
    sessionInit (fun k => if k = "API_KEY" then some "tok" else none)
      none none = .ok ("tok", Stage.PROD) := by
  have h1 := session_construction_spec (fun _ => none)
  have h2 := session_construction_spec
    (fun k => if k = "API_KEY" then some "tok" else none)
  exact ⟨h1.1 (Or.inl rfl), h2.2.1 "tok" (by decide) rfl rfl⟩

/-! ## telemetry.py : the telemetry decorator -/

/-- `make_telemetry_request`, run on the detached thread
`trigger_usage_collection` spawns: build the telemetry record (its construction
can itself fail), then transmit it with every exception suppressed; no failure
in either stage escapes the thread.  The returned list records the
transmissions attempted. -/
def make_telemetry_request {β TErr : Type} (record : Except TErr β)
    (transmit : β → Except TErr Unit) : List β :=
  match record with
  | .error _ => []
  | .ok b =>
    match transmit b with
    | .ok _ => [b]
    | .error _ => [b]

/-- `trigger_usage_collection`: skip telemetry entirely in debug mode,
otherwise hand the record off to the detached telemetry thread. -/
def trigger_usage_collection {β TErr : Type} (debugMode : Bool)
    (record : Except TErr β) (transmit : β → Except TErr Unit) : List β :=
  if debugMode then [] else make_telemetry_request record transmit

/-- The `telemetry` decorator's wrapper around `make_request`: perform the real
call, trigger usage collection on its outcome (success or caught failure), and
return the call's own value or re-raise its own error.  The wrapped call is
modelled by its outcome `wrapped`; the pair returned is the caller-visible
outcome together with the telemetry transmissions attempted. -/
def telemetry_wrapper {ε ρ β TErr : Type} (debugMode : Bool)
    (wrapped : Except ε ρ) (mkRecord : Except ε ρ → Except TErr β)
    (transmit : β → Except TErr Unit) : Except ε ρ × List β :=
  match wrapped with
  | .ok r =>
    (.ok r, trigger_usage_collection debugMode (mkRecord (.ok r)) transmit)
  | .error e =>
    (.error e, trigger_usage_collection debugMode (mkRecord (.error e)) transmit)

/-- **C9.** The telemetry decorator returns exactly the wrapped call's value
and re-raises exactly its exception, whatever the record construction and
transmission do — their failures are swallowed and never alter the caller's
outcome — and in debug mode no telemetry dispatch occurs at all. -/
theorem telemetry_transparent_spec {ε ρ β TErr : Type} (debugMode : Bool)
    (wrapped : Except ε ρ) (mkRecord : Except ε ρ → Except TErr β)
    (transmit : β → Except TErr Unit) :
    (telemetry_wrapper debugMode wrapped mkRecord transmit).1 = wrapped ∧
    (debugMode = true →
      (telemetry_wrapper debugMode wrapped mkRecord transmit).2 = []) := by
  cases wrapped <;>
    exact ⟨rfl, fun h => by simp [telemetry_wrapper, trigger_usage_collection, h]⟩

/-- Witness for C9 at concrete outcomes: a successful call keeps its value and
a failing call keeps its error even when record construction and transmission
both fail, and debug mode dispatches nothing. -/
theorem telemetry_transparent_spec_witness :
    (telemetry_wrapper false (.ok 5 : Except String Nat)
      (fun _ => (.error () : Except Unit Nat)) (fun _ => .error ())).1 =
      .ok 5 ∧
    (telemetry_wrapper false (.error "boom" : Except String Nat)
      (fun _ => (.error () : Except Unit Nat)) (fun _ => .error ())).1 =
      .error "boom" ∧
    (telemetry_wrapper true (.ok 5 : Except String Nat)
      (fun _ => (.ok 9 : Except Unit Nat)) (fun _ => .ok ())).2 = [] := by
  refine ⟨?_, ?_, ?_⟩
  · exact (telemetry_transparent_spec false (.ok 5)
      (fun _ => (.error () : Except Unit Nat)) (fun _ => .error ())).1
  · exact (telemetry_transparent_spec false (.error "boom")
      (fun _ => (.error () : Except Unit Nat)) (fun _ => .error ())).1
  · exact (telemetry_transparent_spec true (.ok 5)
      (fun _ => (.ok 9 : Except Unit Nat)) (fun _ => .ok ())).2 rfl

/-! ## validators.py : check_file_size -/

/-- A spooled temporary file as the validator sees it: total byte size and
current read position. -/
structure SpooledFile where
  size : Nat
  pos : Nat
  deriving DecidableEq, Repr

/-- `fh.tell()`. -/
def tell (fh : SpooledFile) : Nat := fh.pos

/-- `fh.seek(0, os.SEEK_END)`. -/
def seekEnd (fh : SpooledFile) : SpooledFile := { fh with pos := fh.size }

/-- `fh.seek(p)`. -/
def seekTo (fh : SpooledFile) (p : Nat) : SpooledFile := { fh with pos := p }

/-- `validators._get_file_size`: remember the position, seek to the end, read
the size, seek back, return the size alongside the file state. -/
def _get_file_size (fh : SpooledFile) : Nat × SpooledFile :=
  let old_pos := tell fh
  let fh1 := seekEnd fh
  let file_size_bytes := tell fh1
  let fh2 := seekTo fh1 old_pos
  (file_size_bytes, fh2)

/-- `validators.check_file_size`: measure the size through `_get_file_size`
and raise `FileLimitExceededException` when it exceeds `max_size * MB`; the
file state is returned in both outcomes. -/
def check_file_size (fh : SpooledFile) (max_size : Nat) :
    Except ErrKind Unit × SpooledFile :=
  let r := _get_file_size fh
  if max_size * MB < r.1 then (.error .FileLimitExceeded, r.2) else (.ok (), r.2)

/-- The relevant slice of `HandlerUtils.make_artifact`: `compress` rewinds the
spooled archive to position 0 before yielding it, `check_file_size` runs on it,
and on success the same stream is handed to the `MultipartEncoder`. -/
def make_artifact_stream (fh : SpooledFile) (max_size : Nat) :
    Except ErrKind SpooledFile :=
  let rewound := seekTo fh 0
  match check_file_size rewound max_size with
  | (.error e, _) => .error e
  | (.ok _, fh2) => .ok fh2

/-- **C10.** `check_file_size` leaves the file state — in particular the read
position — unchanged, both when it raises `FileLimitExceeded` (size over
`max_size * MB`) and when it passes; consequently the archive stream
`make_artifact` hands to the multipart encoder still starts at the rewound
position 0. -/
theorem check_file_size_frame_spec (fh : SpooledFile) (max_size : Nat) :
    (check_file_size fh max_size).2 = fh ∧
    (max_size * MB < fh.size →
      (check_file_size fh max_size).1 = .error .FileLimitExceeded) ∧
    (fh.size ≤ max_size * MB → (check_file_size fh max_size).1 = .ok ()) ∧
    (∀ out, make_artifact_stream fh max_size = .ok out →
      out = ⟨fh.size, 0⟩) := by
  refine ⟨?_, fun h => ?_, fun h => ?_, fun out hout => ?_⟩
  · simp [check_file_size, _get_file_size, tell, seekEnd, seekTo]
    split <;> rfl
  · simp [check_file_size, _get_file_size, tell, seekEnd, seekTo, h]
  · simp only [check_file_size, _get_file_size, tell, seekEnd, seekTo]
    rw [if_neg (by omega)]
  · rw [make_artifact_stream] at hout
    by_cases hsz : max_size * MB < fh.size
    · rw [show check_file_size (seekTo fh 0) max_size =
          (.error .FileLimitExceeded, seekTo fh 0) by
            simp [check_file_size, _get_file_size, tell, seekEnd, seekTo, hsz]]
        at hout
      exact absurd hout (by simp)
    · rw [show check_file_size (seekTo fh 0) max_size =
          (.ok (), seekTo fh 0) by
            simp [check_file_size, _get_file_size, tell, seekEnd, seekTo]
            omega] at hout
      simpa [seekTo] using hout.symm

/-- Witness for C10 at a concrete spooled file: position 42 is preserved by the
check (which passes at 100 bytes under a 10 MiB budget, and raises over an
empty budget), and the encoder receives the stream at position 0. -/
theorem check_file_size_frame_spec_witness :
    (check_file_size ⟨100, 42⟩ 10).2 = ⟨100, 42⟩ ∧
    (check_file_size ⟨100, 42⟩ 10).1 = .ok () ∧
    (check_file_size ⟨100, 42⟩ 0).1 = .error .FileLimitExceeded ∧
    (check_file_size ⟨100, 42⟩ 0).2 = ⟨100, 42⟩ ∧
    make_artifact_stream ⟨100, 42⟩ 10 = .ok ⟨100, 0⟩ := by
  have h10 := check_file_size_frame_spec ⟨100, 42⟩ 10
  have h0 := check_file_size_frame_spec ⟨100, 42⟩ 0
  refine ⟨h10.1, h10.2.2.1 (by decide), h0.2.1 (by decide), h0.1, ?_⟩
  cases hres : make_artifact_stream ⟨100, 42⟩ 10 with
  | error e =>
    have : (check_file_size (seekTo ⟨100, 42⟩ 0) 10).1 = .ok () :=
      (check_file_size_frame_spec (seekTo ⟨100, 42⟩ 0) 10).2.2.1 (by decide)
    rw [make_artifact_stream] at hres
    revert hres
    rcases hcheck : check_file_size (seekTo ⟨100, 42⟩ 0) 10 with ⟨r1, r2⟩
    rw [hcheck] at this
    simp at this
    subst this
    simp
  | ok out =>
    rw [h10.2.2.2 out hres]

end Peak
